import Mathlib

/-!
# Verification of the Mandelbrot repository (mandelbrot.py, colormap.py)

A shallow embedding of the two source files of the repository, with the
real-number arithmetic of the Python code modelled exactly over `ℚ`.

* `mandelLoop` / `mandelbrot_point` embed the escape-time loop of
  `calculate_mandelbrot` (mandelbrot.py, lines 102-118).  The Python
  `while itr < max_itr-1 and x*x + y*y <= 4` loop is embedded as a
  structurally recursive function with an explicit fuel argument; calling
  it with fuel `max_itr - 1` is exact, because each pass of the loop
  increments `itr` by one, so the loop body can never run more than
  `max_itr - 1` times before the condition `itr < max_itr - 1` fails.
* `linspace` embeds `np.linspace` (the value at index `k` of
  `np.linspace a b n`), and `rectangle_to_viewport` / `mouseUpHandler`
  embed the `MOUSEBUTTONUP` branch of the event loop (lines 140-155),
  which recomputes the bounds from the drag rectangle and then calls
  `calculate_mandelbrot` with no validation of any kind.
* The `ColorMap` class of colormap.py is embedded as `ColorMapState`
  together with `cmapInit` (the source method `initialize`),
  `set_colormap_name`, `cycle_colormap`, `mkColorMap` (the constructor)
  and the four `get_rgbX_Y` accessors.  The matplotlib colormap registry
  (`plt.colormaps()` / `plt.get_cmap`) is external to the repository and
  is abstracted as a `CMapLib`: a partial map from names to continuous
  gradients `ℚ → ℚ × ℚ × ℚ × ℚ` on the normalized domain; `plt.get_cmap`
  raising `ValueError` on an unknown name is modelled by the `none` case.
  Python exceptions are modelled by `Except` / `SetResult`, where
  `SetResult.err` carries the state of the object at the time the
  exception escapes the method (the fields mutated before the raise are
  mutated in the carried state, exactly as in Python).
* `table_lookup` embeds the Python list indexing `colormap_array[i]`
  used by the pixel colouring loop (mandelbrot.py, lines 184-190),
  including Python's negative-index wrap-around.
* `pyRound` embeds Python's builtin `round` on our exact rationals:
  round half to even.
-/

/-- Value at index `k` of `np.linspace a b n` (exact arithmetic).
For `n ≥ 2` this is `a + k*(b-a)/(n-1)`; `ℚ` division by zero is `0`,
so for `n = 1` index `0` yields `a`, as numpy does. -/
def linspace (a b : ℚ) (n : Nat) (k : Nat) : ℚ :=
  a + k * (b - a) / ((n : ℚ) - 1)

/-- The escape-time loop of `calculate_mandelbrot` (mandelbrot.py,
lines 108-117): `while itr < max_itr-1 and x*x + y*y <= 4:` with body
`itr += 1; newx = x*x - y*y + cx; y = 2*x*y + cy; x = newx`.
The extra `fuel` argument makes the recursion structural; with
`fuel ≥ max_itr - 1 - itr` it never cuts the loop short. -/
def mandelLoop (maxItr : Nat) (cx cy : ℚ) : Nat → Nat → ℚ → ℚ → Nat
  | 0, itr, _, _ => itr
  | fuel + 1, itr, x, y =>
    if itr < maxItr - 1 ∧ x * x + y * y ≤ 4 then
      mandelLoop maxItr cx cy fuel (itr + 1) (x * x - y * y + cx) (2 * x * y + cy)
    else itr

/-- Iteration count stored in `px_arr[i,j]` for the point `cx + i*cy`:
the loop entered with `itr = 0`, `x = 0`, `y = 0`. -/
def mandelbrot_point (maxItr : Nat) (cx cy : ℚ) : Nat :=
  mandelLoop maxItr cx cy (maxItr - 1) 0 0 0

/-- Entry `(i, j)` of the iteration matrix: pixel column `i` maps through
`real_values = np.linspace real_min real_max W` and row `j` through
`imag_values = np.linspace imag_max imag_min H` (mandelbrot.py,
lines 53-54 and 106-107). -/
def px_entry (rmin rmax imax imin : ℚ) (W H maxItr i j : Nat) : Nat :=
  mandelbrot_point maxItr (linspace rmin rmax W i) (linspace imax imin H j)

/-- The complex-plane bounds of mandelbrot.py (`real_min`, `real_max`,
`imag_min`, `imag_max`). -/
structure Viewport where
  real_min : ℚ
  real_max : ℚ
  imag_min : ℚ
  imag_max : ℚ
deriving DecidableEq

/-- `calculate_mandelbrot` as a function of the bounds: the full `W × H`
iteration matrix, outer index `i` (real direction), inner index `j`
(imaginary direction), matching `px_arr[i,j]`. -/
def calculate_mandelbrot (v : Viewport) (W H maxItr : Nat) : List (List Nat) :=
  (List.range W).map fun i =>
    (List.range H).map fun j =>
      px_entry v.real_min v.real_max v.imag_max v.imag_min W H maxItr i j

/-- The bound recomputation of the `MOUSEBUTTONUP` branch (mandelbrot.py,
lines 148-153): `real_min = real_values[mouse_down_x]`,
`real_max = real_values[mouse_up_x]`, `imag_max = imag_values[mouse_down_y]`,
`imag_min = imag_max - num_y*(real_max - real_min)/num_x`. -/
def rectangle_to_viewport (v : Viewport) (W H downX upX downY : Nat) : Viewport :=
  let rmin := linspace v.real_min v.real_max W downX
  let rmax := linspace v.real_min v.real_max W upX
  let imax := linspace v.imag_max v.imag_min H downY
  { real_min := rmin
    real_max := rmax
    imag_min := imax - H * (rmax - rmin) / W
    imag_max := imax }

/-- The whole `MOUSEBUTTONUP` handler (mandelbrot.py, lines 140-155): it
recomputes the bounds from the drag rectangle and unconditionally calls
`calculate_mandelbrot` on them.  The source has no validation and no
error path, so the `Option` is always `some`; the type records that an
error-signalling variant would have to produce `none` somewhere. -/
def mouseUpHandler (v : Viewport) (W H maxItr downX downY upX : Nat) :
    Option (Viewport × List (List Nat)) :=
  let v2 := rectangle_to_viewport v W H downX upX downY
  some (v2, calculate_mandelbrot v2 W H maxItr)

/-- An `(r, g, b, a)` value with each channel a float in `[0, 1]`,
what `self.scalarMap.to_rgba(val)` returns. -/
abbrev Rgba := ℚ × ℚ × ℚ × ℚ

/-- The matplotlib colormap registry, external to the repository:
`lookup name` is `some` of the continuous gradient on the normalized
domain when `name` is one of `plt.colormaps()`, and `none` when
`plt.get_cmap name` would raise `ValueError`. -/
structure CMapLib where
  lookup : String → Option (ℚ → Rgba)

/-- The error kinds of the spec: `UnknownGradient` is the `ValueError`
of `plt.get_cmap`, `IndexOutOfRange` the `IndexError` of list access. -/
inductive CMapError where
  | unknownGradient
  | indexOutOfRange
deriving DecidableEq

/-- One element of `cmap.colormap_array`: a tuple whose shape and channel
types depend on `array_type` (see the class docstring of colormap.py). -/
inductive PyColor where
  | rgbU8 (r g b : ℤ)
  | rgbaU8 (r g b : ℤ) (a : ℚ)
  | rgbF (r g b : ℚ)
  | rgbaF (r g b a : ℚ)
deriving DecidableEq

/-- Python's builtin `round` (used by `get_rgb_u8`/`get_rgba_u8`):
round half to even. -/
def pyRound (q : ℚ) : ℤ :=
  if Int.fract q < 1 / 2 then ⌊q⌋
  else if 1 / 2 < Int.fract q then ⌊q⌋ + 1
  else if ⌊q⌋ % 2 = 0 then ⌊q⌋ else ⌊q⌋ + 1

/-- The fields of a `ColorMap` object (colormap.py, `__init__`).
`scalarMap` is the resolved `cm.ScalarMappable(norm, cmap)` built by the
last successful `initialize` call: the composite
`val ↦ cmap ((val - min) / (max - min))`. -/
structure ColorMapState where
  cmap_name : String
  min_value : ℚ
  max_value : ℚ
  number_colors : Nat
  colormap_array : List PyColor
  array_type : String
  current_cycle_number : Nat
  scalarMap : ℚ → Rgba

/-- `mpl.colors.Normalize(vmin, vmax)` applied to `v`. -/
def normalizeV (vmin vmax v : ℚ) : ℚ := (v - vmin) / (vmax - vmin)

/-- `get_rgb_u8` (colormap.py, lines 136-143). -/
def get_rgb_u8 (st : ColorMapState) (val : ℚ) : ℤ × ℤ × ℤ :=
  let c := st.scalarMap val
  (pyRound (255 * c.1), pyRound (255 * c.2.1), pyRound (255 * c.2.2.1))

/-- `get_rgba_u8` (colormap.py, lines 145-152): r, g, b rounded to 8-bit
integers, alpha `c[3]` passed through unchanged. -/
def get_rgba_u8 (st : ColorMapState) (val : ℚ) : ℤ × ℤ × ℤ × ℚ :=
  let c := st.scalarMap val
  (pyRound (255 * c.1), pyRound (255 * c.2.1), pyRound (255 * c.2.2.1), c.2.2.2)

/-- `get_rgb_f` (colormap.py, lines 154-156). -/
def get_rgb_f (st : ColorMapState) (val : ℚ) : ℚ × ℚ × ℚ :=
  let c := st.scalarMap val
  (c.1, c.2.1, c.2.2.1)

/-- `get_rgba_f` (colormap.py, lines 158-159). -/
def get_rgba_f (st : ColorMapState) (val : ℚ) : Rgba :=
  st.scalarMap val

/-- The body of the table-filling loop of `initialize` (colormap.py,
lines 103-111): dispatch on `array_type`, appending nothing when no
branch matches.  This is also the spec operation `sample(value)`: the
exact colour of a scalar under the current encoding. -/
def sample (st : ColorMapState) (v : ℚ) : Option PyColor :=
  if st.array_type = "rgb_u8" then
    some (PyColor.rgbU8 (get_rgb_u8 st v).1 (get_rgb_u8 st v).2.1 (get_rgb_u8 st v).2.2)
  else if st.array_type = "rgba_u8" then
    some (PyColor.rgbaU8 (get_rgba_u8 st v).1 (get_rgba_u8 st v).2.1
      (get_rgba_u8 st v).2.2.1 (get_rgba_u8 st v).2.2.2)
  else if st.array_type = "rgb_f" then
    some (PyColor.rgbF (get_rgb_f st v).1 (get_rgb_f st v).2.1 (get_rgb_f st v).2.2)
  else if st.array_type = "rgba_f" then
    some (PyColor.rgbaF (get_rgba_f st v).1 (get_rgba_f st v).2.1
      (get_rgba_f st v).2.2.1 (get_rgba_f st v).2.2.2)
  else none

/-- `np.linspace a b n` as a list. -/
def linspaceList (a b : ℚ) (n : Nat) : List ℚ :=
  (List.range n).map fun k => linspace a b n k

/-- The source method `initialize` (colormap.py, lines 95-111): resolve
the gradient name (raising `UnknownGradient` on failure, before any
field is touched), rebuild `scalarMap`, then rebuild `colormap_array`
from `num_colors` evenly spaced sample points. -/
def cmapInit (lib : CMapLib) (st : ColorMapState) : Except CMapError ColorMapState :=
  match lib.lookup st.cmap_name with
  | none => .error .unknownGradient
  | some g =>
    let st1 := { st with scalarMap := fun v => g (normalizeV st.min_value st.max_value v) }
    .ok { st1 with
          colormap_array :=
            (linspaceList st.min_value st.max_value st.number_colors).filterMap
              fun v => sample st1 v }

/-- Result of a mutating `ColorMap` method call: `ok` is a normal
return, `err` a propagated Python exception; in both cases the carried
state is the state of the object when control leaves the method (Python
mutates in place, so fields assigned before a raise stay assigned). -/
inductive SetResult where
  | ok (st : ColorMapState)
  | err (e : CMapError) (st : ColorMapState)

/-- Whether the call returned normally. -/
def SetResult.isOk : SetResult → Bool
  | .ok _ => true
  | .err _ _ => false

/-- The object state after the call. -/
def SetResult.state : SetResult → ColorMapState
  | .ok st => st
  | .err _ st => st

/-- The propagated exception, if any. -/
def SetResult.errOf : SetResult → Option CMapError
  | .ok _ => none
  | .err e _ => some e

/-- `set_colormap_name` (colormap.py, lines 124-126): the name field is
assigned first, then `initialize()` runs; an exception thrown there
leaves the already-assigned name in place. -/
def set_colormap_name (lib : CMapLib) (st : ColorMapState) (name : String) : SetResult :=
  let st1 := { st with cmap_name := name }
  match cmapInit lib st1 with
  | .ok st2 => .ok st2
  | .error e => .err e st1

/-- The curated cycle list `self.names_to_cycle` (colormap.py,
lines 83-84). -/
def names_to_cycle : List String :=
  ["viridis", "plasma", "magma", "inferno", "cividis", "spring",
   "summer", "autumn", "winter", "hot", "twilight"]

/-- `cycle_colormap` (colormap.py, lines 113-117): increment the cycle
counter mod the list length, pick that name, reinitialize. -/
def cycle_colormap (lib : CMapLib) (st : ColorMapState) : SetResult :=
  let k := (st.current_cycle_number + 1) % names_to_cycle.length
  let st1 := { st with current_cycle_number := k,
                       cmap_name := List.getD names_to_cycle k default }
  match cmapInit lib st1 with
  | .ok st2 => .ok st2
  | .error e => .err e st1

/-- `n` successive `cycle_colormap` calls, stopping at the first
propagated exception. -/
def cycleIter (lib : CMapLib) (st : ColorMapState) : Nat → SetResult
  | 0 => .ok st
  | n + 1 =>
    match cycle_colormap lib st with
    | .ok st1 => cycleIter lib st1 n
    | r => r

/-- The constructor `__init__` (colormap.py, lines 81-92): fields are
assigned (cycle counter `0`, empty array), then `initialize()` runs. -/
def mkColorMap (lib : CMapLib) (min_val max_val : ℚ) (name : String)
    (num_colors : Nat) (ar_type : String) : SetResult :=
  let st : ColorMapState :=
    { cmap_name := name
      min_value := min_val
      max_value := max_val
      number_colors := num_colors
      colormap_array := []
      array_type := ar_type
      current_cycle_number := 0
      scalarMap := fun _ => (0, 0, 0, 0) }
  match cmapInit lib st with
  | .ok st2 => .ok st2
  | .error e => .err e st

/-- Default colour used as the (never consulted in-range) fallback of
`List.getD` below. -/
def cDefault : PyColor := PyColor.rgbF 0 0 0

/-- Python list indexing `colormap_array[i]` for a possibly negative
integer index (mandelbrot.py line 190 and the class docstring of
colormap.py): indices in `[0, len)` access directly, indices in
`[-len, 0)` wrap to `len + i`, anything else raises `IndexError`. -/
def table_lookup (arr : List PyColor) (i : ℤ) : Except CMapError PyColor :=
  if 0 ≤ i ∧ i < arr.length then .ok (arr.getD i.toNat cDefault)
  else if -(arr.length : ℤ) ≤ i ∧ i < 0 then .ok (arr.getD (i + arr.length).toNat cDefault)
  else .error .indexOutOfRange

/-! Concrete instances used to exercise the definitions. -/

/-- A concrete continuous gradient used to exercise the registry: the
constant gradient (every position maps to transparent black). -/
def gW : ℚ → Rgba := fun _ => (0, 0, 0, 0)

/-- A small concrete registry standing in for matplotlib: it supports
exactly the eleven names of the cycle list, each mapped to `gW`. -/
def lib0 : CMapLib :=
  { lookup := fun name => if name ∈ names_to_cycle then some gW else none }

/-- A placeholder state (only ever used as the `getD` fallback after an
evaluation that is known to succeed). -/
def dfltState : ColorMapState :=
  { cmap_name := "viridis"
    min_value := 0
    max_value := 255
    number_colors := 0
    colormap_array := []
    array_type := "rgb_u8"
    current_cycle_number := 0
    scalarMap := fun _ => (0, 0, 0, 0) }

/-- A concrete pre-`initialize` palette state: gradient `viridis`,
domain `[0, 1]`, a table of 2 colours, `rgba_f` encoding. -/
def st0 : ColorMapState :=
  { cmap_name := "viridis"
    min_value := 0
    max_value := 1
    number_colors := 2
    colormap_array := []
    array_type := "rgba_f"
    current_cycle_number := 0
    scalarMap := fun _ => (0, 0, 0, 0) }

/-- `st0` after a successful `initialize` against `lib0`. -/
def st0i : ColorMapState :=
  (cmapInit lib0 st0).toOption.getD dfltState

/-- The concrete colour table of `st0i`. -/
def arr0 : List PyColor := st0i.colormap_array

/-- A gradient name outside every registry considered here. -/
def badName : String := "unknown_name_xyz"

/-- Like `st0` but with an empty table (`num_colors = 0`), keeping the
repeated-cycling evaluations small. -/
def stW6 : ColorMapState :=
  { cmap_name := "viridis"
    min_value := 0
    max_value := 255
    number_colors := 0
    colormap_array := []
    array_type := "rgb_u8"
    current_cycle_number := 0
    scalarMap := fun _ => (0, 0, 0, 0) }

/-- The initial viewport shape of mandelbrot.py (lines 43-50) at a small
scale: real axis `[-2, 1]`, imaginary axis symmetric. -/
def vp0 : Viewport :=
  { real_min := -2, real_max := 1, imag_min := -1, imag_max := 1 }

/-! Helper lemmas. -/

theorem mandelLoop_le (maxItr : Nat) (cx cy : ℚ) :
    ∀ (fuel itr : Nat) (x y : ℚ), itr ≤ maxItr - 1 →
      mandelLoop maxItr cx cy fuel itr x y ≤ maxItr - 1 := by
  intro fuel
  induction fuel with
  | zero => intro itr x y h; simpa [mandelLoop] using h
  | succ n ih =>
    intro itr x y h
    rw [mandelLoop]
    split
    · next hc => exact ih (itr + 1) _ _ (by omega)
    · exact h

theorem mandelLoop_origin (maxItr : Nat) :
    ∀ (fuel itr : Nat), itr ≤ maxItr - 1 → maxItr - 1 ≤ itr + fuel →
      mandelLoop maxItr 0 0 fuel itr 0 0 = maxItr - 1 := by
  intro fuel
  induction fuel with
  | zero =>
    intro itr h1 h2
    rw [mandelLoop]
    omega
  | succ n ih =>
    intro itr h1 h2
    rw [mandelLoop]
    by_cases hc : itr < maxItr - 1
    · rw [if_pos ⟨hc, by norm_num⟩]
      have e1 : (0 : ℚ) * 0 - 0 * 0 + 0 = 0 := by norm_num
      have e2 : (2 : ℚ) * 0 * 0 + 0 = 0 := by norm_num
      rw [e1, e2]
      exact ih (itr + 1) (by omega) (by omega)
    · rw [if_neg (by tauto)]
      omega

theorem mandelLoop_neg (maxItr : Nat) (cx cy : ℚ) :
    ∀ (fuel itr : Nat) (x y : ℚ),
      mandelLoop maxItr cx (-cy) fuel itr x (-y) = mandelLoop maxItr cx cy fuel itr x y := by
  intro fuel
  induction fuel with
  | zero => intro itr x y; rfl
  | succ n ih =>
    intro itr x y
    rw [mandelLoop, mandelLoop]
    have hmag : x * x + -y * -y = x * x + y * y := by ring
    rw [hmag]
    by_cases hc : itr < maxItr - 1 ∧ x * x + y * y ≤ 4
    · rw [if_pos hc, if_pos hc]
      have e1 : x * x - -y * -y + cx = x * x - y * y + cx := by ring
      have e2 : 2 * x * -y + -cy = -(2 * x * y + cy) := by ring
      rw [e1, e2]
      exact ih (itr + 1) (x * x - y * y + cx) (2 * x * y + cy)
    · rw [if_neg hc, if_neg hc]

theorem linspace_zero (a b : ℚ) (n : Nat) : linspace a b n 0 = a := by
  simp [linspace]

theorem linspace_last (a b : ℚ) (n : Nat) (h : 2 ≤ n) :
    linspace a b n (n - 1) = b := by
  unfold linspace
  have h1 : (1 : Nat) ≤ n := by omega
  have hcast : ((n - 1 : Nat) : ℚ) = (n : ℚ) - 1 := by
    rw [Nat.cast_sub h1, Nat.cast_one]
  have hne : ((n : ℚ) - 1) ≠ 0 := by
    have : (2 : ℚ) ≤ (n : ℚ) := by exact_mod_cast h
    linarith
  rw [hcast]
  field_simp

theorem linspace_sym (c : ℚ) (H j : Nat) (h2 : 2 ≤ H) (hj : j < H) :
    linspace c (-c) H (H - 1 - j) = -(linspace c (-c) H j) := by
  unfold linspace
  have h1j : j ≤ H - 1 := by omega
  have h1H : (1 : Nat) ≤ H := by omega
  have hcast : ((H - 1 - j : Nat) : ℚ) = (H : ℚ) - 1 - (j : ℚ) := by
    rw [Nat.cast_sub h1j, Nat.cast_sub h1H, Nat.cast_one]
  have hne : ((H : ℚ) - 1) ≠ 0 := by
    have : (2 : ℚ) ≤ (H : ℚ) := by exact_mod_cast h2
    linarith
  rw [hcast]
  field_simp
  ring

theorem list_getD_get? {α : Type} (l : List α) :
    ∀ (n : Nat) (d : α), l.getD n d = (l.get? n).getD d := by
  induction l with
  | nil => intro n d; cases n <;> rfl
  | cons a t ih =>
    intro n d
    cases n with
    | zero => rfl
    | succ m => simpa using ih m d

theorem filterMap_all_length {α β : Type} (f : α → Option β) :
    ∀ l : List α, (∀ a ∈ l, (f a).isSome = true) → (l.filterMap f).length = l.length := by
  intro l
  induction l with
  | nil => intro _; rfl
  | cons a t ih =>
    intro h
    obtain ⟨b, hb⟩ := Option.isSome_iff_exists.mp (h a (List.mem_cons_self a t))
    rw [List.filterMap_cons, hb]
    simp [ih fun x hx => h x (List.mem_cons_of_mem a hx)]

theorem filterMap_all_get? {α β : Type} (f : α → Option β) :
    ∀ (l : List α) (n : Nat), (∀ a ∈ l, (f a).isSome = true) →
      (l.filterMap f).get? n = (l.get? n).bind f := by
  intro l
  induction l with
  | nil => intro n _; cases n <;> rfl
  | cons a t ih =>
    intro n h
    obtain ⟨b, hb⟩ := Option.isSome_iff_exists.mp (h a (List.mem_cons_self a t))
    rw [List.filterMap_cons, hb]
    cases n with
    | zero => simp [hb]
    | succ m => simpa using ih m fun x hx => h x (List.mem_cons_of_mem a hx)

theorem cmapInit_ok (lib : CMapLib) (st : ColorMapState) (g : ℚ → Rgba)
    (hg : lib.lookup st.cmap_name = some g) :
    cmapInit lib st = .ok
      { st with
        scalarMap := fun v => g (normalizeV st.min_value st.max_value v)
        colormap_array :=
          (linspaceList st.min_value st.max_value st.number_colors).filterMap fun v =>
            sample { st with
              scalarMap := fun v => g (normalizeV st.min_value st.max_value v) } v } := by
  unfold cmapInit
  rw [hg]

theorem cmapInit_err (lib : CMapLib) (st : ColorMapState)
    (h : lib.lookup st.cmap_name = none) :
    cmapInit lib st = .error .unknownGradient := by
  unfold cmapInit
  rw [h]

theorem sample_ext (s1 s2 : ColorMapState) (h1 : s1.array_type = s2.array_type)
    (h2 : s1.scalarMap = s2.scalarMap) (v : ℚ) : sample s1 v = sample s2 v := by
  unfold sample get_rgb_u8 get_rgba_u8 get_rgb_f get_rgba_f
  rw [h1, h2]

theorem sample_isSome (st : ColorMapState)
    (h : st.array_type = "rgb_u8" ∨ st.array_type = "rgba_u8" ∨
         st.array_type = "rgb_f" ∨ st.array_type = "rgba_f") (v : ℚ) :
    (sample st v).isSome = true := by
  unfold sample
  rcases h with h | h | h | h <;> simp [h]

theorem range_map_getD {α : Type} (f : Nat → α) (n k : Nat) (d : α) (hk : k < n) :
    ((List.range n).map f).getD k d = f k := by
  rw [list_getD_get?, List.get?_map, List.get?_range hk]
  rfl

theorem calculate_entry (v : Viewport) (W H maxItr i j : Nat) (hi : i < W) (hj : j < H) :
    ((calculate_mandelbrot v W H maxItr).getD i []).getD j 0 =
      px_entry v.real_min v.real_max v.imag_max v.imag_min W H maxItr i j := by
  unfold calculate_mandelbrot
  rw [range_map_getD _ _ _ _ hi, range_map_getD _ _ _ _ hj]

theorem getD_mem {α : Type} (l : List α) (k : Nat) (d : α) (hk : k < l.length) :
    l.getD k d ∈ l := by
  rw [list_getD_get?, List.get?_eq_get hk]
  simpa using List.get_mem l k hk

theorem cycle_unfold (lib : CMapLib) (st : ColorMapState) :
    cycle_colormap lib st =
      match cmapInit lib { st with
        current_cycle_number := (st.current_cycle_number + 1) % names_to_cycle.length,
        cmap_name := List.getD names_to_cycle
          ((st.current_cycle_number + 1) % names_to_cycle.length) default } with
      | .ok st2 => .ok st2
      | .error e => .err e { st with
          current_cycle_number := (st.current_cycle_number + 1) % names_to_cycle.length,
          cmap_name := List.getD names_to_cycle
            ((st.current_cycle_number + 1) % names_to_cycle.length) default } := rfl

theorem cycle_step (lib : CMapLib) (st : ColorMapState)
    (hsup : ∀ n ∈ names_to_cycle, (lib.lookup n).isSome = true) :
    ∃ st2, cycle_colormap lib st = .ok st2 ∧
      st2.current_cycle_number = (st.current_cycle_number + 1) % names_to_cycle.length ∧
      st2.cmap_name = List.getD names_to_cycle
        ((st.current_cycle_number + 1) % names_to_cycle.length) default := by
  have hklt : (st.current_cycle_number + 1) % names_to_cycle.length <
      names_to_cycle.length :=
    Nat.mod_lt _ (by decide)
  have hmem := getD_mem names_to_cycle _ default hklt
  obtain ⟨g, hg⟩ := Option.isSome_iff_exists.mp (hsup _ hmem)
  have ho := cmapInit_ok lib { st with
      current_cycle_number := (st.current_cycle_number + 1) % names_to_cycle.length
      cmap_name := List.getD names_to_cycle
        ((st.current_cycle_number + 1) % names_to_cycle.length) default } g hg
  exact ⟨_, by rw [cycle_unfold, ho], rfl, rfl⟩

theorem cycleIter_ok (lib : CMapLib)
    (hsup : ∀ n ∈ names_to_cycle, (lib.lookup n).isSome = true) :
    ∀ (m : Nat) (st : ColorMapState), ∃ st2,
      cycleIter lib st (m + 1) = .ok st2 ∧
      st2.current_cycle_number =
        (st.current_cycle_number + (m + 1)) % names_to_cycle.length ∧
      st2.cmap_name = List.getD names_to_cycle
        ((st.current_cycle_number + (m + 1)) % names_to_cycle.length) default := by
  intro m
  induction m with
  | zero =>
    intro st
    obtain ⟨st2, h1, h2, h3⟩ := cycle_step lib st hsup
    exact ⟨st2, by simp [cycleIter, h1], h2, h3⟩
  | succ m ih =>
    intro st
    obtain ⟨st1, h1, h2, h3⟩ := cycle_step lib st hsup
    obtain ⟨st2, g1, g2, g3⟩ := ih st1
    have hidx : ((st.current_cycle_number + 1) % names_to_cycle.length + (m + 1)) %
        names_to_cycle.length =
        (st.current_cycle_number + (m + 1 + 1)) % names_to_cycle.length := by
      rw [Nat.mod_add_mod]
      congr 1
      omega
    refine ⟨st2, ?_, ?_, ?_⟩
    · show cycleIter lib st (m + 1 + 1) = .ok st2
      simp only [cycleIter, h1]
      exact g1
    · rw [g2, h2, hidx]
    · rw [g3, h2, hidx]

/-! Claim theorems. -/

/-- C1: `calculate_mandelbrot` runs the recurrence
`new_x = x^2 - y^2 + cx`, `new_y = 2*x*y + cy` from `x = y = 0`,
`iterations = 0`, while `iterations < max_iterations - 1` and
`x^2 + y^2 ≤ 4`, and stores the count reached at loop exit; hence every
stored value is at most `max_iterations - 1`, and the pixel mapping to
`cx = 0, cy = 0` stores exactly `max_iterations - 1` for every
`max_iterations ≥ 1`. -/
theorem escape_loop_cap (maxItr : Nat) (h : 1 ≤ maxItr) :
    (∀ cx cy : ℚ, mandelbrot_point maxItr cx cy ≤ maxItr - 1) ∧
    (∀ (v : Viewport) (W H i j : Nat), i < W → j < H →
      ((calculate_mandelbrot v W H maxItr).getD i []).getD j 0 ≤ maxItr - 1) ∧
    mandelbrot_point maxItr 0 0 = maxItr - 1 := by
  refine ⟨?_, ?_, ?_⟩
  · intro cx cy
    exact mandelLoop_le maxItr cx cy (maxItr - 1) 0 0 0 (by omega)
  · intro v W H i j hi hj
    rw [calculate_entry v W H maxItr i j hi hj]
    exact mandelLoop_le maxItr _ _ (maxItr - 1) 0 0 0 (by omega)
  · exact mandelLoop_origin maxItr (maxItr - 1) 0 (by omega) (by omega)

theorem escape_loop_cap_witness :
    (1 ≤ 3) ∧ mandelbrot_point 3 2 2 ≤ 3 - 1 ∧
    ((calculate_mandelbrot vp0 4 4 3).getD 0 []).getD 1 0 ≤ 3 - 1 ∧
    mandelbrot_point 3 0 0 = 3 - 1 :=
  ⟨by norm_num, (escape_loop_cap 3 (by norm_num)).1 2 2,
   (escape_loop_cap 3 (by norm_num)).2.1 vp0 4 4 0 1 (by norm_num) (by norm_num),
   (escape_loop_cap 3 (by norm_num)).2.2⟩

/-- C3: for every drag whose resulting real bounds are properly ordered,
the viewport produced by `rectangle_to_viewport` satisfies
`imag_min = imag_max - H*(real_max - real_min)/W`, so
`(imag_max - imag_min)/(real_max - real_min) = H/W` exactly: the pixel
grid's aspect ratio is preserved, not the drag rectangle's. -/
theorem rect_aspect (v : Viewport) (W H downX upX downY : Nat)
    (h : (rectangle_to_viewport v W H downX upX downY).real_min <
         (rectangle_to_viewport v W H downX upX downY).real_max) :
    (rectangle_to_viewport v W H downX upX downY).imag_min =
      (rectangle_to_viewport v W H downX upX downY).imag_max -
        H * ((rectangle_to_viewport v W H downX upX downY).real_max -
             (rectangle_to_viewport v W H downX upX downY).real_min) / W ∧
    ((rectangle_to_viewport v W H downX upX downY).imag_max -
     (rectangle_to_viewport v W H downX upX downY).imag_min) /
      ((rectangle_to_viewport v W H downX upX downY).real_max -
       (rectangle_to_viewport v W H downX upX downY).real_min) = (H : ℚ) / (W : ℚ) := by
  have key : ∀ (a b m Wq Hq : ℚ), a < b →
      (m - (m - Hq * (b - a) / Wq)) / (b - a) = Hq / Wq := by
    intro a b m Wq Hq hab
    have hba : b - a ≠ 0 := sub_ne_zero_of_ne hab.ne'
    by_cases hW : Wq = 0
    · subst hW
      simp
    · field_simp
      ring
  refine ⟨rfl, ?_⟩
  exact key (linspace v.real_min v.real_max W downX) (linspace v.real_min v.real_max W upX)
    (linspace v.imag_max v.imag_min H downY) (W : ℚ) (H : ℚ) h

theorem rect_aspect_witness :
    (rectangle_to_viewport vp0 4 4 0 3 0).real_min <
      (rectangle_to_viewport vp0 4 4 0 3 0).real_max ∧
    ((rectangle_to_viewport vp0 4 4 0 3 0).imag_max -
     (rectangle_to_viewport vp0 4 4 0 3 0).imag_min) /
      ((rectangle_to_viewport vp0 4 4 0 3 0).real_max -
       (rectangle_to_viewport vp0 4 4 0 3 0).real_min) = ((4 : Nat) : ℚ) / ((4 : Nat) : ℚ) :=
  ⟨by norm_num [rectangle_to_viewport, linspace, vp0],
   (rect_aspect vp0 4 4 0 3 0 (by norm_num [rectangle_to_viewport, linspace, vp0])).2⟩

theorem px_entry_sym (rmin rmax imax : ℚ) (W H maxItr i j : Nat) (hj : j < H) :
    px_entry rmin rmax imax (-imax) W H maxItr i j =
      px_entry rmin rmax imax (-imax) W H maxItr i (H - 1 - j) := by
  rcases Nat.lt_or_ge H 2 with hH | hH
  · have hH1 : H = 1 := by omega
    subst hH1
    have hj0 : j = 0 := by omega
    subst hj0
    rfl
  · unfold px_entry mandelbrot_point
    rw [linspace_sym imax H j hH hj]
    have h1 : mandelLoop maxItr (linspace rmin rmax W i)
          (-(linspace imax (-imax) H j)) (maxItr - 1) 0 0 (-0) =
        mandelLoop maxItr (linspace rmin rmax W i)
          (linspace imax (-imax) H j) (maxItr - 1) 0 0 0 :=
      mandelLoop_neg maxItr (linspace rmin rmax W i) (linspace imax (-imax) H j)
        (maxItr - 1) 0 0 0
    rw [neg_zero] at h1
    exact h1.symm

/-- C8: for a viewport whose imaginary range is symmetric about `0`
(`imag_min = -imag_max`), the iteration matrix produced by
`calculate_mandelbrot` mirrors across the horizontal midline:
`matrix[i][j] = matrix[i][H-1-j]` for every pixel of the grid. -/
theorem mirror_symmetry (v : Viewport) (W H maxItr i j : Nat)
    (hsym : v.imag_min = -v.imag_max) (hi : i < W) (hj : j < H) :
    ((calculate_mandelbrot v W H maxItr).getD i []).getD j 0 =
      ((calculate_mandelbrot v W H maxItr).getD i []).getD (H - 1 - j) 0 := by
  rw [calculate_entry v W H maxItr i j hi hj,
    calculate_entry v W H maxItr i (H - 1 - j) hi (by omega), hsym]
  exact px_entry_sym v.real_min v.real_max v.imag_max W H maxItr i j hj

theorem pyRound_near (q : ℚ) : |(pyRound q : ℚ) - q| ≤ 1 / 2 := by
  have hq : Int.fract q = q - ⌊q⌋ := rfl
  have h0 : (0 : ℚ) ≤ Int.fract q := Int.fract_nonneg q
  have h1 : Int.fract q < 1 := Int.fract_lt_one q
  unfold pyRound
  split_ifs with hlt hgt hev
  · rw [abs_le]; constructor <;> push_cast <;> linarith
  · rw [abs_le]; constructor <;> push_cast <;> linarith
  · rw [abs_le]; constructor <;> push_cast <;> linarith
  · rw [abs_le]; constructor <;> push_cast <;> linarith

/-- C9: both `U8` encodings produce r, g, b by rounding (half to even,
Python's `round`) `255 ×` the gradient's continuous channel values, the
rounding being a nearest-integer rounding (within `1/2`, so never a
truncation), while `get_rgba_u8` returns the alpha channel as the
unmodified floating value. -/
theorem u8_rounding (st : ColorMapState) (val q : ℚ) :
    get_rgb_u8 st val =
      (pyRound (255 * (st.scalarMap val).1), pyRound (255 * (st.scalarMap val).2.1),
       pyRound (255 * (st.scalarMap val).2.2.1)) ∧
    get_rgba_u8 st val =
      (pyRound (255 * (st.scalarMap val).1), pyRound (255 * (st.scalarMap val).2.1),
       pyRound (255 * (st.scalarMap val).2.2.1), (st.scalarMap val).2.2.2) ∧
    |(pyRound q : ℚ) - q| ≤ 1 / 2 :=
  ⟨rfl, rfl, pyRound_near q⟩

/-- C2 (amended): the `MOUSEBUTTONUP` handler performs no validation at
all: it always returns the recomputed viewport together with the result
of running `calculate_mandelbrot` on it, including when the bounds are
inverted or degenerate; no `InvalidViewport` error exists in the code. -/
theorem mouse_up_no_validation (v : Viewport) (W H maxItr downX downY upX : Nat) :
    mouseUpHandler v W H maxItr downX downY upX =
      some (rectangle_to_viewport v W H downX upX downY,
        calculate_mandelbrot (rectangle_to_viewport v W H downX upX downY) W H maxItr) := rfl

/-- C2 (counterexample): a reversed drag (`upX < downX`) yields
`real_max < real_min`, and the handler still returns normally with a
matrix recomputed on those inverted bounds — no error is raised before
`calculate_mandelbrot` runs. -/
theorem mouse_up_runs_on_inverted :
    (rectangle_to_viewport vp0 4 4 3 0 0).real_max <
      (rectangle_to_viewport vp0 4 4 3 0 0).real_min ∧
    (mouseUpHandler vp0 4 4 3 3 0 0).isSome = true ∧
    mouseUpHandler vp0 4 4 3 3 0 0 =
      some (rectangle_to_viewport vp0 4 4 3 0 0,
        calculate_mandelbrot (rectangle_to_viewport vp0 4 4 3 0 0) 4 4 3) :=
  ⟨by norm_num [rectangle_to_viewport, linspace, vp0], rfl, rfl⟩

/-- C4 (amended): `set_colormap_name` with an unsupported name fails
with `UnknownGradient` and leaves the `ColorTable` and the resolved
scalar mapping untouched, but the stored gradient name has already been
overwritten with the requested (invalid) name when the exception
escapes; with a supported name (resolving to gradient `g`) the call
succeeds, the stored name is updated, and the `ColorTable` is rebuilt:
the post-call `colormap_array` is the table freshly built from
`number_colors` evenly spaced sample points under the new gradient. -/
theorem set_gradient_behavior (lib : CMapLib) (st : ColorMapState) (name : String) :
    (lib.lookup name = none →
      set_colormap_name lib st name = .err .unknownGradient { st with cmap_name := name }) ∧
    (∀ g, lib.lookup name = some g →
      (set_colormap_name lib st name).isOk = true ∧
      (set_colormap_name lib st name).state.cmap_name = name ∧
      (set_colormap_name lib st name).state.colormap_array =
        (linspaceList st.min_value st.max_value st.number_colors).filterMap fun v =>
          sample { st with
            cmap_name := name
            scalarMap := fun v => g (normalizeV st.min_value st.max_value v) } v) := by
  constructor
  · intro h
    have he : cmapInit lib { st with cmap_name := name } = .error .unknownGradient :=
      cmapInit_err lib _ h
    simp only [set_colormap_name]
    rw [he]
  · intro g hg
    have ho := cmapInit_ok lib { st with cmap_name := name } g hg
    simp only [set_colormap_name]
    rw [ho]
    exact ⟨rfl, rfl, rfl⟩

theorem set_gradient_behavior_witness :
    (set_colormap_name lib0 st0 badName = .err .unknownGradient { st0 with cmap_name := badName }) ∧
    ((set_colormap_name lib0 st0 (List.getD names_to_cycle 1 default)).isOk = true ∧
     (set_colormap_name lib0 st0 (List.getD names_to_cycle 1 default)).state.cmap_name =
       List.getD names_to_cycle 1 default ∧
     (set_colormap_name lib0 st0 (List.getD names_to_cycle 1 default)).state.colormap_array =
       (linspaceList st0.min_value st0.max_value st0.number_colors).filterMap fun v =>
         sample { st0 with
           cmap_name := List.getD names_to_cycle 1 default
           scalarMap := fun v => gW (normalizeV st0.min_value st0.max_value v) } v) :=
  ⟨(set_gradient_behavior lib0 st0 badName).1 rfl,
   (set_gradient_behavior lib0 st0 (List.getD names_to_cycle 1 default)).2 gW rfl⟩

/-- C4 (counterexample): calling `set_colormap_name` on a palette whose
gradient is `viridis` with the unknown name `unknown_name_xyz` raises
`UnknownGradient`, but the stored gradient name after the call is the
invalid name, not the prior one — the prior state is not fully
preserved, contradicting the claim. -/
theorem set_gradient_state_leak :
    (set_colormap_name lib0 st0 badName).isOk = false ∧
    (set_colormap_name lib0 st0 badName).errOf = some CMapError.unknownGradient ∧
    (set_colormap_name lib0 st0 badName).state.cmap_name = badName ∧
    (set_colormap_name lib0 st0 badName).state.colormap_array = st0.colormap_array ∧
    (set_colormap_name lib0 st0 badName).state.cmap_name ≠ st0.cmap_name :=
  ⟨rfl, rfl, rfl, rfl, by decide⟩

/-- C5 (amended): Python list indexing semantics of
`colormap_array[index]`: an index in `[0, table_size)` returns
`ColorTable[index]`; a negative index in `[-table_size, -1]` does not
fail but returns `ColorTable[table_size + index]`; `IndexOutOfRange`
is raised exactly when `index < -table_size` or `index ≥ table_size`. -/
theorem table_lookup_py (arr : List PyColor) (i : ℤ) :
    (0 ≤ i ∧ i < arr.length → table_lookup arr i = .ok (arr.getD i.toNat cDefault)) ∧
    (-(arr.length : ℤ) ≤ i ∧ i < 0 →
      table_lookup arr i = .ok (arr.getD (i + arr.length).toNat cDefault)) ∧
    ((i < -(arr.length : ℤ) ∨ (arr.length : ℤ) ≤ i) →
      table_lookup arr i = .error .indexOutOfRange) := by
  unfold table_lookup
  refine ⟨fun h => ?_, fun h => ?_, fun h => ?_⟩
  · rw [if_pos h]
  · rw [if_neg (by omega), if_pos h]
  · rw [if_neg (by omega), if_neg (by omega)]

theorem table_lookup_py_witness :
    (table_lookup arr0 1 = .ok (arr0.getD (1 : ℤ).toNat cDefault)) ∧
    (table_lookup arr0 (-2) = .ok (arr0.getD ((-2 : ℤ) + arr0.length).toNat cDefault)) ∧
    (table_lookup arr0 5 = .error .indexOutOfRange) :=
  ⟨(table_lookup_py arr0 1).1 (by decide),
   (table_lookup_py arr0 (-2)).2.1 (by decide),
   (table_lookup_py arr0 5).2.2 (by decide)⟩

/-- C5 (counterexample): on the concrete 2-colour table `arr0` the
negative index `-1` does not fail: it returns the last colour of the
table (Python wrap-around), contradicting the claim that every negative
index fails. -/
theorem table_lookup_neg_returns :
    table_lookup arr0 (-1) = .ok (PyColor.rgbaF 0 0 0 0) ∧ ((-1 : ℤ) < 0) :=
  ⟨rfl, by decide⟩

/-- C7: after a successful `initialize` with a valid encoding,
`domain_min < domain_max` and `table_size ≥ 2`, the table endpoints
round-trip through direct sampling: `table_lookup 0` is the colour
`sample` yields at `domain_min`, and `table_lookup (table_size - 1)` is
the colour `sample` yields at `domain_max`, exactly (the table is built
from `table_size` evenly spaced points starting at `domain_min` and
ending at `domain_max`). -/
theorem table_endpoints (lib : CMapLib) (st st' : ColorMapState) (c0 cN : PyColor)
    (hinit : cmapInit lib st = .ok st')
    (hlt : st.min_value < st.max_value)
    (hn : 2 ≤ st.number_colors)
    (htype : st.array_type = "rgb_u8" ∨ st.array_type = "rgba_u8" ∨
             st.array_type = "rgb_f" ∨ st.array_type = "rgba_f")
    (h0 : sample st' st.min_value = some c0)
    (hN : sample st' st.max_value = some cN) :
    table_lookup st'.colormap_array 0 = .ok c0 ∧
    table_lookup st'.colormap_array ((st.number_colors : ℤ) - 1) = .ok cN := by
  obtain ⟨g, hg⟩ : ∃ g, lib.lookup st.cmap_name = some g := by
    cases hl : lib.lookup st.cmap_name with
    | none => rw [cmapInit_err lib st hl] at hinit; cases hinit
    | some g => exact ⟨g, rfl⟩
  have ho := cmapInit_ok lib st g hg
  rw [hinit] at ho
  have hst : st' = { st with
      scalarMap := fun v => g (normalizeV st.min_value st.max_value v)
      colormap_array :=
        (linspaceList st.min_value st.max_value st.number_colors).filterMap fun v =>
          sample { st with
            scalarMap := fun v => g (normalizeV st.min_value st.max_value v) } v } := by
    injection ho
  set st1 : ColorMapState := { st with
      scalarMap := fun v => g (normalizeV st.min_value st.max_value v) } with hst1
  have harr : st'.colormap_array =
      (linspaceList st.min_value st.max_value st.number_colors).filterMap fun v =>
        sample st1 v := by
    rw [hst]
  have hsamp : ∀ v, sample st' v = sample st1 v := fun v =>
    sample_ext st' st1 (by rw [hst]) (by rw [hst]) v
  have hall : ∀ v ∈ linspaceList st.min_value st.max_value st.number_colors,
      ((fun v => sample st1 v) v).isSome = true := fun v _ =>
    sample_isSome st1 htype v
  have hlen : ((linspaceList st.min_value st.max_value st.number_colors).filterMap fun v =>
      sample st1 v).length = st.number_colors := by
    rw [filterMap_all_length _ _ hall]
    simp [linspaceList]
  have hget0 : ((linspaceList st.min_value st.max_value st.number_colors).filterMap fun v =>
      sample st1 v).get? 0 = some c0 := by
    rw [filterMap_all_get? _ _ 0 hall]
    have hr : (linspaceList st.min_value st.max_value st.number_colors).get? 0 =
        some (linspace st.min_value st.max_value st.number_colors 0) := by
      unfold linspaceList
      rw [List.get?_map, List.get?_range (by omega)]
      rfl
    rw [hr, linspace_zero]
    show sample st1 st.min_value = some c0
    rw [← hsamp]
    exact h0
  have hgetN : ((linspaceList st.min_value st.max_value st.number_colors).filterMap fun v =>
      sample st1 v).get? (st.number_colors - 1) = some cN := by
    rw [filterMap_all_get? _ _ _ hall]
    have hr : (linspaceList st.min_value st.max_value st.number_colors).get?
        (st.number_colors - 1) =
        some (linspace st.min_value st.max_value st.number_colors (st.number_colors - 1)) := by
      unfold linspaceList
      rw [List.get?_map, List.get?_range (by omega)]
      rfl
    rw [hr, linspace_last _ _ _ hn]
    show sample st1 st.max_value = some cN
    rw [← hsamp]
    exact hN
  constructor
  · unfold table_lookup
    rw [harr, if_pos ⟨le_refl 0, by rw [hlen]; exact_mod_cast Nat.lt_of_lt_of_le Nat.zero_lt_two hn⟩]
    rw [show ((0 : ℤ).toNat) = 0 from rfl, list_getD_get?, hget0]
    rfl
  · unfold table_lookup
    have hc : (0 : ℤ) ≤ (st.number_colors : ℤ) - 1 ∧
        (st.number_colors : ℤ) - 1 <
          ((linspaceList st.min_value st.max_value st.number_colors).filterMap fun v =>
            sample st1 v).length := by
      rw [hlen]
      omega
    rw [harr, if_pos hc]
    rw [show (((st.number_colors : ℤ) - 1).toNat) = st.number_colors - 1 by omega,
      list_getD_get?, hgetN]
    rfl

theorem table_endpoints_witness :
    table_lookup st0i.colormap_array 0 = .ok (PyColor.rgbaF 0 0 0 0) ∧
    table_lookup st0i.colormap_array ((st0.number_colors : ℤ) - 1) =
      .ok (PyColor.rgbaF 0 0 0 0) :=
  table_endpoints lib0 st0 st0i (PyColor.rgbaF 0 0 0 0) (PyColor.rgbaF 0 0 0 0)
    rfl (by norm_num [st0]) (by decide) (Or.inr (Or.inr (Or.inr rfl))) rfl rfl

/-- C10: with the iteration cap tied to the palette size
(`max_itr = cmap.number_colors`), every stored iteration count is an
integer in `[0, max_itr - 1]`, so the per-pixel index
`int(px_arr[i,j])` is always a valid index into `colormap_array`: the
render-loop table access never goes out of range. -/
theorem render_index_safe (lib : CMapLib) (st st' : ColorMapState)
    (rmin rmax imax imin : ℚ) (W H i j : Nat)
    (hinit : cmapInit lib st = .ok st')
    (htype : st.array_type = "rgb_u8" ∨ st.array_type = "rgba_u8" ∨
             st.array_type = "rgb_f" ∨ st.array_type = "rgba_f")
    (hn : 1 ≤ st.number_colors) :
    px_entry rmin rmax imax imin W H st.number_colors i j < st'.colormap_array.length ∧
    table_lookup st'.colormap_array
        ((px_entry rmin rmax imax imin W H st.number_colors i j : Nat) : ℤ) =
      .ok (st'.colormap_array.getD (px_entry rmin rmax imax imin W H st.number_colors i j)
        cDefault) := by
  obtain ⟨g, hg⟩ : ∃ g, lib.lookup st.cmap_name = some g := by
    cases hl : lib.lookup st.cmap_name with
    | none => rw [cmapInit_err lib st hl] at hinit; cases hinit
    | some g => exact ⟨g, rfl⟩
  have ho := cmapInit_ok lib st g hg
  rw [hinit] at ho
  have hst : st' = { st with
      scalarMap := fun v => g (normalizeV st.min_value st.max_value v)
      colormap_array :=
        (linspaceList st.min_value st.max_value st.number_colors).filterMap fun v =>
          sample { st with
            scalarMap := fun v => g (normalizeV st.min_value st.max_value v) } v } := by
    injection ho
  set st1 : ColorMapState := { st with
      scalarMap := fun v => g (normalizeV st.min_value st.max_value v) } with hst1
  have harr : st'.colormap_array =
      (linspaceList st.min_value st.max_value st.number_colors).filterMap fun v =>
        sample st1 v := by
    rw [hst]
  have hall : ∀ v ∈ linspaceList st.min_value st.max_value st.number_colors,
      ((fun v => sample st1 v) v).isSome = true := fun v _ =>
    sample_isSome st1 htype v
  have hlen : st'.colormap_array.length = st.number_colors := by
    rw [harr, filterMap_all_length _ _ hall]
    simp [linspaceList]
  have hcap : px_entry rmin rmax imax imin W H st.number_colors i j ≤
      st.number_colors - 1 :=
    mandelLoop_le st.number_colors (linspace rmin rmax W i) (linspace imax imin H j)
      (st.number_colors - 1) 0 0 0 (by omega)
  have hlt2 : px_entry rmin rmax imax imin W H st.number_colors i j < st.number_colors := by
    omega
  refine ⟨by rw [hlen]; exact hlt2, ?_⟩
  unfold table_lookup
  have hcond : (0 : ℤ) ≤ ((px_entry rmin rmax imax imin W H st.number_colors i j : Nat) : ℤ) ∧
      ((px_entry rmin rmax imax imin W H st.number_colors i j : Nat) : ℤ) <
        st'.colormap_array.length := by
    constructor
    · exact Int.natCast_nonneg _
    · rw [hlen]
      exact_mod_cast hlt2
  rw [if_pos hcond]
  rw [show (((px_entry rmin rmax imax imin W H st.number_colors i j : Nat) : ℤ)).toNat =
      px_entry rmin rmax imax imin W H st.number_colors i j by omega]

theorem render_index_safe_witness :
    px_entry 0 1 1 0 2 2 st0.number_colors 0 0 < st0i.colormap_array.length ∧
    table_lookup st0i.colormap_array
        ((px_entry 0 1 1 0 2 2 st0.number_colors 0 0 : Nat) : ℤ) =
      .ok (st0i.colormap_array.getD (px_entry 0 1 1 0 2 2 st0.number_colors 0 0) cDefault) :=
  render_index_safe lib0 st0 st0i 0 1 1 0 2 2 0 0 rfl
    (Or.inr (Or.inr (Or.inr rfl))) (by decide)

/-- C6 (amended): `cycle_colormap` always succeeds when the registry
supports every cycle-list name, advancing the cycle index modulo the
length of the curated cycle list (wrapping rather than erroring); and
calling it `N = length(cycle_list)` times restores both the cycle index
and the gradient name, for every starting state whose name is the one
the cycle index points at (for example any state produced by a previous
`cycle_colormap` call, or a freshly constructed `viridis` palette).  A
state whose name was set independently of the cycle index does not get
its name restored (see the counterexample). -/
theorem cycle_wraps (lib : CMapLib) (st : ColorMapState)
    (hsup : ∀ n ∈ names_to_cycle, (lib.lookup n).isSome = true)
    (hk : st.current_cycle_number < names_to_cycle.length)
    (hname : st.cmap_name = List.getD names_to_cycle st.current_cycle_number default) :
    (cycle_colormap lib st).isOk = true ∧
    (cycle_colormap lib st).state.current_cycle_number =
      (st.current_cycle_number + 1) % names_to_cycle.length ∧
    (cycleIter lib st names_to_cycle.length).isOk = true ∧
    (cycleIter lib st names_to_cycle.length).state.cmap_name = st.cmap_name ∧
    (cycleIter lib st names_to_cycle.length).state.current_cycle_number =
      st.current_cycle_number := by
  obtain ⟨s1, h1, h2, h3⟩ := cycle_step lib st hsup
  obtain ⟨s2, g1, g2, g3⟩ := cycleIter_ok lib hsup (names_to_cycle.length - 1) st
  have hN : names_to_cycle.length - 1 + 1 = names_to_cycle.length := by decide
  rw [hN] at g1 g2 g3
  have hmod : (st.current_cycle_number + names_to_cycle.length) % names_to_cycle.length =
      st.current_cycle_number := by
    rw [Nat.add_mod_right]
    exact Nat.mod_eq_of_lt hk
  refine ⟨by rw [h1]; rfl, by rw [h1]; exact h2, by rw [g1]; rfl, ?_, ?_⟩
  · rw [g1]
    show s2.cmap_name = st.cmap_name
    rw [g3, hmod, ← hname]
  · rw [g1]
    show s2.current_cycle_number = st.current_cycle_number
    rw [g2, hmod]

theorem cycle_wraps_witness :
    (cycle_colormap lib0 stW6).isOk = true ∧
    (cycle_colormap lib0 stW6).state.current_cycle_number =
      (stW6.current_cycle_number + 1) % names_to_cycle.length ∧
    (cycleIter lib0 stW6 names_to_cycle.length).isOk = true ∧
    (cycleIter lib0 stW6 names_to_cycle.length).state.cmap_name = stW6.cmap_name ∧
    (cycleIter lib0 stW6 names_to_cycle.length).state.current_cycle_number =
      stW6.current_cycle_number :=
  cycle_wraps lib0 stW6 (by decide) (by decide) rfl

/-- C6 (counterexample): a palette constructed as
`ColorMap(0, 255, 'hot')` starts with cycle index `0` but gradient name
`hot`; after exactly `N = 11` cycles the gradient name is `viridis`
(the name the restored cycle index `0` points at), not the starting
name `hot` — so `N` cycles do not return the gradient name to its
prior value for every starting state. -/
theorem cycle_restore_counterexample :
    (mkColorMap lib0 0 255 "hot" 0 "rgb_u8").isOk = true ∧
    (mkColorMap lib0 0 255 "hot" 0 "rgb_u8").state.cmap_name = "hot" ∧
    (cycleIter lib0 (mkColorMap lib0 0 255 "hot" 0 "rgb_u8").state
        names_to_cycle.length).isOk = true ∧
    (cycleIter lib0 (mkColorMap lib0 0 255 "hot" 0 "rgb_u8").state
        names_to_cycle.length).state.cmap_name = "viridis" ∧
    (cycleIter lib0 (mkColorMap lib0 0 255 "hot" 0 "rgb_u8").state
        names_to_cycle.length).state.cmap_name ≠
      (mkColorMap lib0 0 255 "hot" 0 "rgb_u8").state.cmap_name :=
  ⟨rfl, rfl, rfl, rfl, by decide⟩

theorem mirror_symmetry_witness :
    (vp0.imag_min = -vp0.imag_max) ∧ (0 < 2) ∧ (1 < 4) ∧
    ((calculate_mandelbrot vp0 2 4 3).getD 0 []).getD 1 0 =
      ((calculate_mandelbrot vp0 2 4 3).getD 0 []).getD (4 - 1 - 1) 0 :=
  ⟨by norm_num [vp0], by norm_num, by norm_num,
   mirror_symmetry vp0 2 4 3 0 1 (by norm_num [vp0]) (by norm_num) (by norm_num)⟩
